import Mathlib

/-!
# FodaStore — shipment costing and payment settlement, shallow embedding

This file embeds the monetary core of the FodaStore repository in Lean 4:

* the payment-settlement engine `createPayment` of the `DatabaseStorage`
  class (current variant, `src/unnamed/part_005` lines 1014–1077), which runs
  inside a database transaction with a `SELECT ... FOR UPDATE` row lock;
* the shipment cost aggregation of the `PATCH /api/shipments/:id` handler
  (`src/server/routes.ts` lines 887–1025) and of the
  `POST /api/shipments` handler (`src/server/routes.ts` lines 822–885);
* the wizard line-item computation `updateItem`
  (`src/unnamed/part_003` lines 180–194);
* the supplier-balance report `getSupplierBalances`
  (`src/unnamed/part_005` lines 1387–1411).

Monetary values, stored by the source as `numeric` strings written with
`toFixed(2)` and read back with `parseFloat`, are modelled as rationals `ℚ`;
`toFixed(2)` / `roundAmount(x, d)` are modelled as round-half-up to `d`
decimal places.  Database rows are lists of records; the transaction of
`createPayment` is modelled by a runner that keeps the original state when
the body throws (PostgreSQL rolls the transaction back), and the
`FOR UPDATE` row lock by the fact that concurrent settlements against one
shipment execute as one of the two sequential orders.
-/

namespace FodaStore

/-- Round-half-up to `d` decimal places: the model of JavaScript's
`x.toFixed(d)` (read back via `parseFloat`) and of `roundAmount(x, d)`. -/
def roundTo (d : ℕ) (x : ℚ) : ℚ :=
  (⌊x * (10 : ℚ) ^ d + 1 / 2⌋ : ℚ) / (10 : ℚ) ^ d

/-- Rounding to two decimals, the default for monetary amounts
(`roundAmount` is called with no digit argument at part_005:1060 and
`toFixed(2)` is used for every monetary write). -/
def round2 (x : ℚ) : ℚ := roundTo 2 x

/-- A rational is a whole number of piasters (a "cent" of EGP): the shape of
every monetary value the system itself persists, since every monetary write
goes through `toFixed(2)`. -/
def Cents (x : ℚ) : Prop := ∃ n : ℤ, x = (n : ℚ) / 100

theorem Cents.zero : Cents 0 := ⟨0, by norm_num⟩

theorem Cents.add {x y : ℚ} (hx : Cents x) (hy : Cents y) : Cents (x + y) := by
  obtain ⟨m, hm⟩ := hx
  obtain ⟨n, hn⟩ := hy
  exact ⟨m + n, by push_cast [hm, hn]; ring⟩

theorem round2_cents (x : ℚ) : Cents (round2 x) := by
  exact ⟨⌊x * (10 : ℚ) ^ 2 + 1 / 2⌋, by norm_num [round2, roundTo]⟩

/-- Round-half-up to two decimals is the identity on whole-cent values. -/
theorem round2_eq_of_cents {x : ℚ} (hx : Cents x) : round2 x = x := by
  obtain ⟨n, hn⟩ := hx
  have h1 : x * (10 : ℚ) ^ 2 + 1 / 2 = (n : ℚ) + 1 / 2 := by rw [hn]; ring
  have h2 : ⌊(n : ℚ) + 1 / 2⌋ = n :=
    Int.floor_eq_iff.mpr ⟨by linarith, by linarith⟩
  rw [round2, roundTo, h1, h2, hn]
  norm_num

theorem round2_nonneg {x : ℚ} (hx : 0 ≤ x) : 0 ≤ round2 x := by
  have h : (0 : ℤ) ≤ ⌊x * (10 : ℚ) ^ 2 + 1 / 2⌋ := Int.floor_nonneg.mpr (by positivity)
  rw [round2, roundTo]
  exact div_nonneg (by exact_mod_cast h) (by norm_num)

/-- Payment currency.  The source compares the `paymentCurrency` field
against the string literals `"EGP"` and `"RMB"`. -/
inductive Currency where
  | EGP : Currency
  | RMB : Currency
deriving DecidableEq, Repr

/-- The errors the settlement path can throw.  In the source each is a plain
`Error` carrying only a message string (part_005:1020 and part_005:1039);
`validation` is the `ValidationError` of the currency normalizer. -/
inductive PaymentError where
  | notFound (message : String) : PaymentError
  | validation : PaymentError
  | overpayment (message : String) : PaymentError
deriving DecidableEq, Repr

/-- A row of the `shipments` table, restricted to the columns the monetary
core reads or writes.  `numeric` columns (strings written with `toFixed(2)`
and read with `parseFloat`) are modelled as `ℚ`; timestamps as `ℤ`. -/
structure Shipment where
  id : ℕ
  status : String
  purchaseCostRmb : ℚ
  purchaseCostEgp : ℚ
  commissionCostRmb : ℚ
  commissionCostEgp : ℚ
  shippingCostRmb : ℚ
  shippingCostEgp : ℚ
  customsCostEgp : ℚ
  takhreegCostEgp : ℚ
  finalTotalCostEgp : ℚ
  totalPaidEgp : ℚ
  balanceEgp : ℚ
  lastPaymentDate : Option ℤ
  updatedAt : ℤ
deriving DecidableEq, Repr

/-- A row of the `shipment_payments` table (the columns the core uses). -/
structure ShipmentPayment where
  shipmentId : ℕ
  paymentDate : ℤ
  paymentCurrency : Currency
  amountOriginal : ℚ
  exchangeRateToEgp : Option ℚ
  amountEgp : ℚ
deriving DecidableEq, Repr

/-- The caller-supplied part of an `InsertShipmentPayment`:
`createPayment` overrides `amountOriginal`, `exchangeRateToEgp` and
`amountEgp` itself (part_005:1044–1048), so only the remaining monetary
fields matter here. -/
structure PaymentInput where
  shipmentId : ℕ
  paymentDate : ℤ
  paymentCurrency : Currency
  amountOriginal : ℚ
  exchangeRateToEgp : Option ℚ
deriving DecidableEq, Repr

/-- A row of the `shipment_items` table (the columns the aggregator uses). -/
structure ShipmentItem where
  shipmentId : ℕ
  cartonsCtn : ℕ
  piecesPerCartonPcs : ℕ
  purchasePricePerPiecePriRmb : ℚ
  totalPiecesCou : ℕ
  totalPurchaseCostRmb : ℚ
  customsCostPerCartonEgp : ℚ
  takhreegCostPerCartonEgp : ℚ
deriving DecidableEq, Repr

/-- The shipping step's request payload (`shippingData` in the PATCH
handler).  Fields arrive as possibly-empty strings; `parseFloat(x or d)`
is modelled as `Option.getD`. -/
structure ShippingData where
  commissionRatePercent : Option ℚ
  shippingAreaSqm : Option ℚ
  shippingCostPerSqmUsdOriginal : Option ℚ
  usdToRmbRate : Option ℚ
  rmbToEgpRate : Option ℚ
deriving DecidableEq, Repr

/-- The database state the monetary core touches. -/
structure DBState where
  shipments : List Shipment
  shipmentItems : List ShipmentItem
  shipmentPayments : List ShipmentPayment
deriving DecidableEq, Repr

/-- `getShipment` / the `SELECT ... FOR UPDATE` read: first row with the
given id. -/
def getShipment (s : DBState) (id : ℕ) : Option Shipment :=
  s.shipments.find? (fun sh => sh.id == id)

/-- `getShipmentPayments`: the rows of `shipment_payments` for one
shipment. -/
def paymentsOf (payments : List ShipmentPayment) (shipmentId : ℕ) :
    List ShipmentPayment :=
  payments.filter (fun p => p.shipmentId == shipmentId)

/-- `SUM(amount_egp)` over a list of payment rows. -/
def sumAmountEgp (ps : List ShipmentPayment) : ℚ :=
  (ps.map (fun p => p.amountEgp)).sum

/-- `MAX(payment_date)` over a list of dates: `none` on the empty list,
exactly like SQL `MAX` over zero rows. -/
def maxDate : List ℤ → Option ℤ
  | [] => none
  | d :: ds =>
    match maxDate ds with
    | none => some d
    | some m => some (max d m)

/-- Modelled from the spec: `normalizePaymentAmounts` is imported from
`./services/currency` (part_005:581), but `server/services/currency.ts` is
not among the sources.  Spec §4.1: if the currency is EGP the amount is kept
and the rate nulled; if it is RMB a positive rate must be supplied (else
`ValidationError`) and `amountEgp = amountOriginal * exchangeRateToEgp`.
Rounding is applied by the caller when persisting (part_005:1046–1048), so
the normalizer returns exact values. -/
def normalizePaymentAmounts (paymentCurrency : Currency) (amountOriginal : ℚ)
    (exchangeRateToEgp : Option ℚ) : Except PaymentError (ℚ × Option ℚ) :=
  match paymentCurrency with
  | .EGP => .ok (amountOriginal, none)
  | .RMB =>
    match exchangeRateToEgp with
    | none => .error .validation
    | some rate =>
      if rate ≤ 0 then .error .validation
      else .ok (amountOriginal * rate, some rate)

/-- The message of the not-found throw at part_005:1020. -/
def notFoundMessage : String := "الشحنة غير موجودة"

/-- The message of the overpayment throw at part_005:1039.  It is a fixed
string: the thrown `Error` carries no other data. -/
def overpaymentMessage : String := "لا يمكن دفع مبلغ أكبر من المتبقي على الشحنة."

/-- The payment row inserted at part_005:1042–1050: the caller's data with
`amountOriginal` rounded to 2 decimals, the normalizer's rate rounded to 4
decimals (kept `null` for EGP), and the normalized `amountEgp` rounded to 2
decimals. -/
def settledPayment (data : PaymentInput) (amountEgp : ℚ) (rateOut : Option ℚ) :
    ShipmentPayment :=
  { shipmentId := data.shipmentId
    paymentDate := data.paymentDate
    paymentCurrency := data.paymentCurrency
    amountOriginal := roundTo 2 data.amountOriginal
    exchangeRateToEgp := rateOut.map (roundTo 4)
    amountEgp := round2 amountEgp }

/-- The shipment-row update of the write phase (part_005:1052–1073):
`totalPaidEgp` is recomputed as `SUM(amount_egp)` over all of the
shipment's payment rows (the inserted one included), the balance as
`max(0, finalCost - totalPaid)` where `finalCost` was read from the locked
row before the write, and `lastPaymentDate` as `MAX(payment_date)` with
the source's `|| data.paymentDate` fallback. -/
def settledRow (sh : Shipment) (s : DBState) (data : PaymentInput) (now : ℤ)
    (finalCost : ℚ) (payment : ShipmentPayment) : Shipment :=
  let shipmentPays := paymentsOf (s.shipmentPayments ++ [payment]) data.shipmentId
  let totalPaidNumber := round2 (sumAmountEgp shipmentPays)
  let balance := round2 (max 0 (finalCost - totalPaidNumber))
  let latestPaymentDate :=
    match maxDate (shipmentPays.map (fun p => p.paymentDate)) with
    | some d => d
    | none => data.paymentDate
  { sh with
    totalPaidEgp := totalPaidNumber
    balanceEgp := balance
    lastPaymentDate := some latestPaymentDate
    updatedAt := now }

/-- The write phase of `createPayment` (part_005:1042–1073): insert the
payment row and update the shipment row via `settledRow`. -/
def commitPayment (s : DBState) (data : PaymentInput) (now : ℤ)
    (finalCost : ℚ) (payment : ShipmentPayment) : DBState :=
  { s with
    shipments := s.shipments.map (fun sh =>
      if sh.id == data.shipmentId then
        settledRow sh s data now finalCost payment
      else sh)
    shipmentPayments := s.shipmentPayments ++ [payment] }

/-- The body of `DatabaseStorage.createPayment` (current variant,
part_005:1014–1077), as run inside `db.transaction` after the
`SELECT * FROM shipments WHERE id = ... FOR UPDATE` row lock: read the
locked shipment (throw if absent), normalize the amount, reject an
overpayment against `remainingBefore + 0.0001`, then run the write
phase. -/
def createPaymentTx (s : DBState) (data : PaymentInput) (now : ℤ) :
    Except PaymentError (DBState × ShipmentPayment) :=
  match getShipment s data.shipmentId with
  | none => .error (.notFound notFoundMessage)
  | some shipment =>
    match normalizePaymentAmounts data.paymentCurrency data.amountOriginal
        data.exchangeRateToEgp with
    | .error e => .error e
    | .ok (amountEgp, exchangeRateToEgp) =>
      let remainingBefore :=
        max 0 (shipment.finalTotalCostEgp - shipment.totalPaidEgp)
      if amountEgp > remainingBefore + 1 / 10000 then
        .error (.overpayment overpaymentMessage)
      else
        let payment := settledPayment data amountEgp exchangeRateToEgp
        .ok (commitPayment s data now shipment.finalTotalCostEgp payment,
             payment)

/-- `db.transaction` semantics around `createPaymentTx`: when the body
throws, PostgreSQL rolls the transaction back and the database keeps its
original state; when it returns, the writes are committed. -/
def runCreatePayment (s : DBState) (data : PaymentInput) (now : ℤ) :
    DBState × Except PaymentError ShipmentPayment :=
  match createPaymentTx s data now with
  | .ok (s2, p) => (s2, .ok p)
  | .error e => (s, .error e)

/-- Wizard `updateItem` (part_003:180–194): derive `totalPiecesCou` and the
line total `totalPurchaseCostRmb = (cou * pri).toFixed(2)` from cartons,
pieces per carton and unit price. -/
def updateItem (item : ShipmentItem) : ShipmentItem :=
  let ctn := item.cartonsCtn
  let pcs := item.piecesPerCartonPcs
  let pri := item.purchasePricePerPiecePriRmb
  let cou := ctn * pcs
  { item with
    totalPiecesCou := cou
    totalPurchaseCostRmb := round2 ((cou : ℚ) * pri) }

/-- `routes.ts:916–919` (and `845–848`): purchase cost is the sum of the
stored line totals. -/
def totalPurchaseCostRmbOf (items : List ShipmentItem) : ℚ :=
  (items.map (fun it => it.totalPurchaseCostRmb)).sum

/-- `routes.ts:921–925` (and `850–854`): customs cost is the sum of
`cartons * customsCostPerCarton`. -/
def totalCustomsCostEgpOf (items : List ShipmentItem) : ℚ :=
  (items.map (fun it => (it.cartonsCtn : ℚ) * it.customsCostPerCartonEgp)).sum

/-- `routes.ts:927–931` (and `856–860`): clearance ("takhreeg") cost is the
sum of `cartons * takhreegCostPerCarton`. -/
def totalTakhreegCostEgpOf (items : List ShipmentItem) : ℚ :=
  (items.map (fun it => (it.cartonsCtn : ℚ) * it.takhreegCostPerCartonEgp)).sum

/-- The item step of `PATCH /api/shipments/:id` (routes.ts:933–937): write
the recomputed purchase / customs / takhreeg components back to the
shipment row with `toFixed(2)`. -/
def applyItemsUpdate (sh : Shipment) (items : List ShipmentItem) : Shipment :=
  { sh with
    purchaseCostRmb := round2 (totalPurchaseCostRmbOf items)
    customsCostEgp := round2 (totalCustomsCostEgpOf items)
    takhreegCostEgp := round2 (totalTakhreegCostEgpOf items) }

/-- The shipping step of `PATCH /api/shipments/:id` (routes.ts:941–983):
`parseFloat(rate or "1")` for the two conversion rates, `parseFloat(x or
"0")` for the commission rate, the area and the per-sqm rate; commission,
shipping and purchase costs are derived and written back with
`toFixed(2)`. -/
def applyShippingUpdate (sh : Shipment) (sd : ShippingData) : Shipment :=
  let rmbToEgp := sd.rmbToEgpRate.getD 1
  let usdToRmb := sd.usdToRmbRate.getD 1
  let totalPurchaseCostRmb := sh.purchaseCostRmb
  let commissionRmb := totalPurchaseCostRmb * sd.commissionRatePercent.getD 0 / 100
  let commissionEgp := commissionRmb * rmbToEgp
  let shippingCostUsd := sd.shippingAreaSqm.getD 0 * sd.shippingCostPerSqmUsdOriginal.getD 0
  let shippingCostRmb := shippingCostUsd * usdToRmb
  let shippingCostEgp := shippingCostRmb * rmbToEgp
  let purchaseCostEgp := totalPurchaseCostRmb * rmbToEgp
  { sh with
    purchaseCostEgp := round2 purchaseCostEgp
    commissionCostRmb := round2 commissionRmb
    commissionCostEgp := round2 commissionEgp
    shippingCostRmb := round2 shippingCostRmb
    shippingCostEgp := round2 shippingCostEgp }

/-- The closing step of `PATCH /api/shipments/:id` (routes.ts:986–1017),
run on every PATCH: recompute `finalTotalCostEgp` from the five current
component fields, recompute `balanceEgp = max(0, final - paid)`, and
advance the status by wizard step. -/
def finalizeShipmentTotals (sh : Shipment) (step : ℕ) (hasShippingData : Bool) :
    Shipment :=
  let finalTotalCostEgp :=
    sh.purchaseCostEgp + sh.commissionCostEgp + sh.shippingCostEgp +
      sh.customsCostEgp + sh.takhreegCostEgp
  let balanceEgp := max 0 (finalTotalCostEgp - sh.totalPaidEgp)
  let newStatus :=
    if step == 2 && hasShippingData then "جاهزة للاستلام"
    else if step == 4 then "مستلمة بنجاح"
    else sh.status
  { sh with
    finalTotalCostEgp := round2 finalTotalCostEgp
    balanceEgp := round2 balanceEgp
    status := newStatus }

/-- The error of the PATCH handler's existence check (routes.ts:893–896). -/
inductive PatchError where
  | notFound (message : String) : PatchError
deriving DecidableEq, Repr

/-- The per-row monetary effect of one PATCH on the shipment being saved:
when items were sent, the item components are recomputed from the freshly
re-read item rows (routes.ts:914–937); when shipping data was sent, the
shipping components are recomputed (routes.ts:941–983); the final total and
balance are always recomputed (routes.ts:986–1017). -/
def patchShipmentRow (sh : Shipment) (step : ℕ)
    (itemsForRecalc : Option (List ShipmentItem))
    (shippingData : Option ShippingData) : Shipment :=
  let sh1 :=
    match itemsForRecalc with
    | some its => applyItemsUpdate sh its
    | none => sh
  let sh2 :=
    match shippingData with
    | some sd => applyShippingUpdate sh1 sd
    | none => sh1
  finalizeShipmentTotals sh2 step shippingData.isSome

/-- `PATCH /api/shipments/:id` (routes.ts:887–1025), restricted to its
monetary effect: check the shipment exists (404 otherwise), optionally
delete-and-recreate its items, then apply `patchShipmentRow` to the
shipment row.  The basic-data step (routes.ts:898–901) writes only identity
fields sent by wizard step 1 and is omitted. -/
def updateShipmentRoute (s : DBState) (shipmentId : ℕ) (step : ℕ)
    (items : Option (List ShipmentItem)) (shippingData : Option ShippingData) :
    Except PatchError DBState :=
  match getShipment s shipmentId with
  | none => .error (.notFound "الشحنة غير موجودة")
  | some _ =>
    let itemsTable :=
      match items with
      | some newItems =>
        s.shipmentItems.filter (fun it => it.shipmentId != shipmentId) ++
          newItems.map (fun it => { it with shipmentId := shipmentId })
      | none => s.shipmentItems
    let itemsForRecalc :=
      match items with
      | some _ => some (itemsTable.filter (fun it => it.shipmentId == shipmentId))
      | none => none
    .ok { s with
      shipments := s.shipments.map (fun sh =>
        if sh.id == shipmentId then
          patchShipmentRow sh step itemsForRecalc shippingData
        else sh)
      shipmentItems := itemsTable }

/-- `POST /api/shipments` (routes.ts:822–885): create a shipment from its
items, computing a preliminary purchase cost in EGP from the latest RMB→EGP
rate (default 7.15 when no rate row exists), and write
`finalTotalCostEgp = purchaseCostEgp + customs + takhreeg` with
`balanceEgp` set to the same value (`totalPaidEgp` keeps its fresh-row
default 0). -/
def createShipmentRoute (items : List ShipmentItem) (latestRmbToEgp : Option ℚ)
    (newId : ℕ) (status : String) : Shipment :=
  let totalPurchaseCostRmb := totalPurchaseCostRmbOf items
  let totalCustomsCostEgp := totalCustomsCostEgpOf items
  let totalTakhreegCostEgp := totalTakhreegCostEgpOf items
  let rmbToEgp := latestRmbToEgp.getD (143 / 20)
  let purchaseCostEgp := totalPurchaseCostRmb * rmbToEgp
  let finalTotalCostEgp := purchaseCostEgp + totalCustomsCostEgp + totalTakhreegCostEgp
  { id := newId
    status := status
    purchaseCostRmb := round2 totalPurchaseCostRmb
    purchaseCostEgp := round2 purchaseCostEgp
    commissionCostRmb := 0
    commissionCostEgp := 0
    shippingCostRmb := 0
    shippingCostEgp := 0
    customsCostEgp := round2 totalCustomsCostEgp
    takhreegCostEgp := round2 totalTakhreegCostEgp
    finalTotalCostEgp := round2 finalTotalCostEgp
    totalPaidEgp := 0
    balanceEgp := round2 finalTotalCostEgp
    lastPaymentDate := none
    updatedAt := 0 }

/-- One row of the supplier-balance report. -/
structure SupplierBalanceRow where
  totalCostEgp : ℚ
  totalPaidEgp : ℚ
  balanceEgp : ℚ
  balanceStatus : String
deriving DecidableEq, Repr

/-- `getSupplierBalances` for one supplier (part_005:1384–1411): sum the
supplier's shipment totals and the payments linked to those shipments,
report `balance = totalCost - totalPaid` (no clamping), and classify with
the 0.0001 threshold: `owing` above it, `credit` below its negation,
`settled` in between. -/
def supplierBalanceRow (supplierShipments : List Shipment)
    (allPayments : List ShipmentPayment) : SupplierBalanceRow :=
  let ids := supplierShipments.map (fun sh => sh.id)
  let supplierPayments := allPayments.filter (fun p => ids.contains p.shipmentId)
  let totalCost := (supplierShipments.map (fun sh => sh.finalTotalCostEgp)).sum
  let totalPaid := sumAmountEgp supplierPayments
  let balance := totalCost - totalPaid
  let balanceStatus :=
    if balance > 1 / 10000 then "owing"
    else if balance < -(1 / 10000) then "credit"
    else "settled"
  { totalCostEgp := round2 totalCost
    totalPaidEgp := round2 totalPaid
    balanceEgp := round2 balance
    balanceStatus := balanceStatus }

/-! ## Helper lemmas -/

theorem round2_zero : round2 0 = 0 := round2_eq_of_cents ⟨0, by norm_num⟩

theorem Cents.neg {x : ℚ} (hx : Cents x) : Cents (-x) := by
  obtain ⟨n, hn⟩ := hx
  exact ⟨-n, by push_cast [hn]; ring⟩

theorem Cents.sub {x y : ℚ} (hx : Cents x) (hy : Cents y) : Cents (x - y) := by
  have := hx.add hy.neg
  simpa [sub_eq_add_neg] using this

theorem Cents.max_zero {x : ℚ} (hx : Cents x) : Cents (max 0 x) := by
  rcases max_choice 0 x with h | h <;> rw [h]
  · exact Cents.zero
  · exact hx

/-- A positive whole-cent amount is at least one piaster. -/
theorem Cents.one_cent_le {x : ℚ} (hx : Cents x) (hpos : 0 < x) : 1 / 100 ≤ x := by
  obtain ⟨n, hn⟩ := hx
  have hn0 : (0 : ℚ) < (n : ℚ) / 100 := hn ▸ hpos
  have : (0 : ℤ) < n := by
    by_contra h
    push_neg at h
    have : ((n : ℚ) / 100) ≤ 0 := by
      apply div_nonpos_of_nonpos_of_nonneg
      · exact_mod_cast h
      · norm_num
    linarith
  have : (1 : ℤ) ≤ n := this
  rw [hn]
  have : (1 : ℚ) ≤ (n : ℚ) := by exact_mod_cast this
  linarith

theorem cents_sumAmountEgp {ps : List ShipmentPayment}
    (h : ∀ p ∈ ps, Cents p.amountEgp) : Cents (sumAmountEgp ps) := by
  induction ps with
  | nil => simpa [sumAmountEgp] using Cents.zero
  | cons q t ih =>
    have hq : Cents q.amountEgp := h q (by simp)
    have ht : Cents (sumAmountEgp t) := ih fun p hp => h p (by simp [hp])
    simpa [sumAmountEgp] using hq.add ht

theorem paymentsOf_append_last (ps : List ShipmentPayment) (p : ShipmentPayment)
    (id : ℕ) (hp : p.shipmentId = id) :
    paymentsOf (ps ++ [p]) id = paymentsOf ps id ++ [p] := by
  simp [paymentsOf, List.filter_append, hp]

theorem sumAmountEgp_append (ps qs : List ShipmentPayment) :
    sumAmountEgp (ps ++ qs) = sumAmountEgp ps + sumAmountEgp qs := by
  simp [sumAmountEgp]

theorem maxDate_eq_none {l : List ℤ} (h : maxDate l = none) : l = [] := by
  cases l with
  | nil => rfl
  | cons a t =>
    rw [maxDate] at h
    split at h <;> simp at h

/-- `maxDate` returns an element that bounds the whole list: it is SQL
`MAX`. -/
theorem maxDate_spec (l : List ℤ) (m : ℤ) (h : maxDate l = some m) :
    m ∈ l ∧ ∀ d ∈ l, d ≤ m := by
  induction l generalizing m with
  | nil => simp [maxDate] at h
  | cons a t ih =>
    rw [maxDate] at h
    cases ht : maxDate t with
    | none =>
      have hnil : t = [] := maxDate_eq_none ht
      subst hnil
      rw [ht] at h
      simp only [Option.some.injEq] at h
      subst h
      simp
    | some k =>
      rw [ht] at h
      simp only [Option.some.injEq] at h
      obtain ⟨hk, hall⟩ := ih k ht
      subst h
      constructor
      · rcases le_total a k with hak | hka
        · rw [max_eq_right hak]
          exact List.mem_cons_of_mem a hk
        · rw [max_eq_left hka]
          exact List.mem_cons_self a t
      · intro d hd
        rcases List.mem_cons.mp hd with hd | hd
        · rw [hd]
          exact le_max_left a k
        · exact le_trans (hall d hd) (le_max_right a k)

theorem maxDate_cons_isSome (a : ℤ) (t : List ℤ) : ∃ m, maxDate (a :: t) = some m := by
  rw [maxDate]
  cases maxDate t <;> exact ⟨_, rfl⟩

/-- Reading back a row after a keyed in-place update: the first row with the
key is the updated image of the first row that had the key before. -/
theorem find_keyed_update (l : List Shipment) (id : ℕ) (g : Shipment → Shipment)
    (hg : ∀ sh, (g sh).id = sh.id) :
    (l.map (fun sh => if sh.id == id then g sh else sh)).find?
        (fun sh => sh.id == id) =
      (l.find? (fun sh => sh.id == id)).map g := by
  induction l with
  | nil => simp
  | cons a t ih =>
    cases h : (a.id == id) with
    | true =>
      have hgp : ((g a).id == id) = true := by rw [hg]; exact h
      simp only [List.map_cons, h, eq_self_iff_true, if_true]
      rw [List.find?_cons_of_pos (p := fun (sh : Shipment) => sh.id == id) _ hgp,
        List.find?_cons_of_pos (p := fun (sh : Shipment) => sh.id == id) _ h]
      simp
    | false =>
      simp only [List.map_cons, h, Bool.false_eq_true, if_false]
      rw [List.find?_cons_of_neg (p := fun (sh : Shipment) => sh.id == id) _ (by simp [h]),
        List.find?_cons_of_neg (p := fun (sh : Shipment) => sh.id == id) _ (by simp [h])]
      exact ih

theorem mem_of_paymentsOf {ps : List ShipmentPayment} {id : ℕ}
    {q : ShipmentPayment} (h : q ∈ paymentsOf ps id) : q ∈ ps :=
  List.mem_of_mem_filter h

/-- Dissection of a failed `createPayment` at the overpayment gate: when the
shipment is found, the amount normalizes, and the normalized amount exceeds
the remaining balance plus the 0.0001 tolerance, the transaction aborts with
the fixed overpayment message and the state is kept. -/
theorem runCreatePayment_overpay (s : DBState) (data : PaymentInput) (now : ℤ)
    (shipment : Shipment) (amountEgp : ℚ) (rateOut : Option ℚ)
    (hfind : getShipment s data.shipmentId = some shipment)
    (hnorm : normalizePaymentAmounts data.paymentCurrency data.amountOriginal
      data.exchangeRateToEgp = .ok (amountEgp, rateOut))
    (hover : amountEgp >
      max 0 (shipment.finalTotalCostEgp - shipment.totalPaidEgp) + 1 / 10000) :
    runCreatePayment s data now = (s, .error (.overpayment overpaymentMessage)) := by
  unfold runCreatePayment createPaymentTx
  simp only [hfind, hnorm]
  rw [if_pos hover]

/-- Dissection of a successful `createPayment` when the overpayment gate
passes: the result is the committed write phase and the inserted row. -/
theorem runCreatePayment_commit (s : DBState) (data : PaymentInput) (now : ℤ)
    (shipment : Shipment) (amountEgp : ℚ) (rateOut : Option ℚ)
    (hfind : getShipment s data.shipmentId = some shipment)
    (hnorm : normalizePaymentAmounts data.paymentCurrency data.amountOriginal
      data.exchangeRateToEgp = .ok (amountEgp, rateOut))
    (hok : ¬ amountEgp >
      max 0 (shipment.finalTotalCostEgp - shipment.totalPaidEgp) + 1 / 10000) :
    runCreatePayment s data now =
      (commitPayment s data now shipment.finalTotalCostEgp
          (settledPayment data amountEgp rateOut),
        .ok (settledPayment data amountEgp rateOut)) := by
  unfold runCreatePayment createPaymentTx
  simp only [hfind, hnorm]
  rw [if_neg hok]

/-- Dissection of an arbitrary successful `createPayment` run. -/
theorem runCreatePayment_ok (s : DBState) (data : PaymentInput) (now : ℤ)
    (s2 : DBState) (p : ShipmentPayment)
    (h : runCreatePayment s data now = (s2, .ok p)) :
    ∃ shipment amountEgp rateOut,
      getShipment s data.shipmentId = some shipment ∧
      normalizePaymentAmounts data.paymentCurrency data.amountOriginal
        data.exchangeRateToEgp = .ok (amountEgp, rateOut) ∧
      ¬ amountEgp >
        max 0 (shipment.finalTotalCostEgp - shipment.totalPaidEgp) + 1 / 10000 ∧
      p = settledPayment data amountEgp rateOut ∧
      s2 = commitPayment s data now shipment.finalTotalCostEgp p := by
  unfold runCreatePayment createPaymentTx at h
  cases hfind : getShipment s data.shipmentId with
  | none => rw [hfind] at h; simp at h
  | some shipment =>
    rw [hfind] at h
    cases hnorm : normalizePaymentAmounts data.paymentCurrency data.amountOriginal
        data.exchangeRateToEgp with
    | error e => rw [hnorm] at h; simp at h
    | ok pr =>
      obtain ⟨amountEgp, rateOut⟩ := pr
      rw [hnorm] at h
      dsimp only at h
      by_cases hover : amountEgp >
          max 0 (shipment.finalTotalCostEgp - shipment.totalPaidEgp) + 1 / 10000
      · rw [if_pos hover] at h
        simp at h
      · rw [if_neg hover] at h
        simp only [Prod.mk.injEq, Except.ok.injEq] at h
        exact ⟨shipment, amountEgp, rateOut, rfl, rfl, hover, h.2.symm,
          by rw [← h.1, ← h.2]⟩

/-- The committed state's shipment row, read back: the found row with the
recomputed totals. -/
theorem getShipment_commitPayment (s : DBState) (data : PaymentInput) (now : ℤ)
    (finalCost : ℚ) (payment : ShipmentPayment) :
    getShipment (commitPayment s data now finalCost payment) data.shipmentId =
      (getShipment s data.shipmentId).map (fun sh =>
        settledRow sh s data now finalCost payment) := by
  unfold commitPayment getShipment
  exact find_keyed_update s.shipments data.shipmentId _ (fun sh => rfl)

/-- The balance invariant of spec §8. -/
def BalanceInv (sh : Shipment) : Prop :=
  sh.balanceEgp = max 0 (sh.finalTotalCostEgp - sh.totalPaidEgp) ∧
    0 ≤ sh.balanceEgp

/-! ## Concrete fixtures used to instantiate the theorems -/

/-- A shipment row with the given totals; every other monetary field 0. -/
def testShipment (id : ℕ) (finalTotal paid balance : ℚ) : Shipment :=
  { id := id
    status := "جديدة"
    purchaseCostRmb := 0
    purchaseCostEgp := 0
    commissionCostRmb := 0
    commissionCostEgp := 0
    shippingCostRmb := 0
    shippingCostEgp := 0
    customsCostEgp := 0
    takhreegCostEgp := 0
    finalTotalCostEgp := finalTotal
    totalPaidEgp := paid
    balanceEgp := balance
    lastPaymentDate := none
    updatedAt := 0 }

/-- A database state with the given shipments and payments and no items. -/
def testState (shs : List Shipment) (pays : List ShipmentPayment) : DBState :=
  { shipments := shs, shipmentItems := [], shipmentPayments := pays }

/-- An EGP payment submission. -/
def egpInput (shipmentId : ℕ) (date : ℤ) (amount : ℚ) : PaymentInput :=
  { shipmentId := shipmentId
    paymentDate := date
    paymentCurrency := .EGP
    amountOriginal := amount
    exchangeRateToEgp := none }

/-- A persisted EGP payment row. -/
def testPayment (shipmentId : ℕ) (date : ℤ) (amount : ℚ) : ShipmentPayment :=
  { shipmentId := shipmentId
    paymentDate := date
    paymentCurrency := .EGP
    amountOriginal := amount
    exchangeRateToEgp := none
    amountEgp := amount }

/-! ## Claims -/

/-- C1 (amended): on an existing shipment whose payment normalizes,
`createPayment` fails — necessarily with the overpayment rejection — exactly
when the normalized `amountEgp` exceeds `remainingBefore + 0.0001`, where
`remainingBefore = max(0, finalTotalCostEgp - totalPaidEgp)` is read from
the locked row before the write; on that failure the whole state is kept
(no payment is recorded) and the rejection carries only the fixed message
`overpaymentMessage` — the computed remaining balance is not part of the
surfaced error (see the counterexample to the original claim). -/
theorem C1_overpayment_rejection (s : DBState) (data : PaymentInput) (now : ℤ)
    (shipment : Shipment) (amountEgp : ℚ) (rateOut : Option ℚ)
    (hfind : getShipment s data.shipmentId = some shipment)
    (hnorm : normalizePaymentAmounts data.paymentCurrency data.amountOriginal
      data.exchangeRateToEgp = .ok (amountEgp, rateOut)) :
    (((runCreatePayment s data now).2 =
        .error (.overpayment overpaymentMessage)) ↔
      amountEgp >
        max 0 (shipment.finalTotalCostEgp - shipment.totalPaidEgp) + 1 / 10000)
    ∧ (amountEgp >
        max 0 (shipment.finalTotalCostEgp - shipment.totalPaidEgp) + 1 / 10000 →
      runCreatePayment s data now =
        (s, .error (.overpayment overpaymentMessage))) := by
  by_cases hover : amountEgp >
      max 0 (shipment.finalTotalCostEgp - shipment.totalPaidEgp) + 1 / 10000
  · have hrun := runCreatePayment_overpay s data now shipment amountEgp rateOut
      hfind hnorm hover
    exact ⟨⟨fun _ => hover, fun _ => by rw [hrun]⟩, fun _ => hrun⟩
  · have hrun := runCreatePayment_commit s data now shipment amountEgp rateOut
      hfind hnorm hover
    refine ⟨⟨fun hco => ?_, fun hco => absurd hco hover⟩,
      fun hco => absurd hco hover⟩
    rw [hrun] at hco
    simp at hco

/-- Witness for C1: shipment with final total 600, nothing paid; an EGP
payment of 700 is rejected as an overpayment and the state is kept. -/
theorem C1_overpayment_rejection_witness :
    (((runCreatePayment (testState [testShipment 1 600 0 600] [])
          (egpInput 1 5 700) 0).2 =
        .error (.overpayment overpaymentMessage)) ↔
      (700 : ℚ) > max 0 ((testShipment 1 600 0 600).finalTotalCostEgp -
        (testShipment 1 600 0 600).totalPaidEgp) + 1 / 10000)
    ∧ ((700 : ℚ) > max 0 ((testShipment 1 600 0 600).finalTotalCostEgp -
        (testShipment 1 600 0 600).totalPaidEgp) + 1 / 10000 →
      runCreatePayment (testState [testShipment 1 600 0 600] [])
          (egpInput 1 5 700) 0 =
        (testState [testShipment 1 600 0 600] [],
          .error (.overpayment overpaymentMessage))) :=
  C1_overpayment_rejection (testState [testShipment 1 600 0 600] [])
    (egpInput 1 5 700) 0 (testShipment 1 600 0 600) 700 none rfl rfl

/-- Counterexample to C1 as stated: the rejected operation does NOT surface
the computed remaining balance — two states whose remaining balances differ
(600 versus 100) produce the very same error value, the fixed message. -/
theorem C1_counterexample :
    (runCreatePayment (testState [testShipment 1 600 0 600] [])
        (egpInput 1 5 700) 0).2 =
      .error (.overpayment overpaymentMessage)
    ∧ (runCreatePayment (testState [testShipment 1 100 0 100] [])
        (egpInput 1 5 700) 0).2 =
      .error (.overpayment overpaymentMessage)
    ∧ (runCreatePayment (testState [testShipment 1 600 0 600] [])
        (egpInput 1 5 700) 0).2 =
      (runCreatePayment (testState [testShipment 1 100 0 100] [])
        (egpInput 1 5 700) 0).2
    ∧ max 0 ((testShipment 1 600 0 600).finalTotalCostEgp -
        (testShipment 1 600 0 600).totalPaidEgp) ≠
      max 0 ((testShipment 1 100 0 100).finalTotalCostEgp -
        (testShipment 1 100 0 100).totalPaidEgp) := by
  have h1 := runCreatePayment_overpay (testState [testShipment 1 600 0 600] [])
    (egpInput 1 5 700) 0 (testShipment 1 600 0 600) 700 none rfl rfl
    (by norm_num [testShipment])
  have h2 := runCreatePayment_overpay (testState [testShipment 1 100 0 100] [])
    (egpInput 1 5 700) 0 (testShipment 1 100 0 100) 700 none rfl rfl
    (by norm_num [testShipment])
  refine ⟨by rw [h1], by rw [h2], by rw [h1, h2], by norm_num [testShipment]⟩

/-- C4: whenever `createPayment` fails — shipment not found, normalization
failure, overpayment rejection; persistence failures are subsumed by the
transaction runner — the whole state is kept: no payment row is persisted
and the shipment rows are unchanged. -/
theorem C4_failure_atomicity (s : DBState) (data : PaymentInput) (now : ℤ)
    (e : PaymentError) (h : (runCreatePayment s data now).2 = .error e) :
    (runCreatePayment s data now).1 = s ∧
    (runCreatePayment s data now).1.shipmentPayments = s.shipmentPayments ∧
    (runCreatePayment s data now).1.shipments = s.shipments := by
  have h1 : (runCreatePayment s data now).1 = s := by
    unfold runCreatePayment at h ⊢
    cases htx : createPaymentTx s data now with
    | ok v =>
      obtain ⟨s3, p⟩ := v
      rw [htx] at h
      simp at h
    | error e2 => rfl
  exact ⟨h1, by rw [h1], by rw [h1]⟩

/-- Witness for C4: a payment against a missing shipment fails and leaves
the empty state untouched. -/
theorem C4_failure_atomicity_witness :
    (runCreatePayment (testState [] []) (egpInput 1 0 100) 0).1 =
      testState [] [] ∧
    (runCreatePayment (testState [] []) (egpInput 1 0 100) 0).1.shipmentPayments =
      (testState [] []).shipmentPayments ∧
    (runCreatePayment (testState [] []) (egpInput 1 0 100) 0).1.shipments =
      (testState [] []).shipments :=
  C4_failure_atomicity (testState [] []) (egpInput 1 0 100) 0
    (.notFound notFoundMessage) rfl

/-- The five EGP cost components and the paid total of a row are whole-cent
values: true of every row the system writes, since all of its monetary
writes go through `toFixed(2)`. -/
def CentsRow (sh : Shipment) : Prop :=
  Cents sh.purchaseCostEgp ∧ Cents sh.commissionCostEgp ∧
    Cents sh.shippingCostEgp ∧ Cents sh.customsCostEgp ∧
    Cents sh.takhreegCostEgp ∧ Cents sh.totalPaidEgp

theorem centsRow_applyItemsUpdate {sh : Shipment} (h : CentsRow sh)
    (items : List ShipmentItem) : CentsRow (applyItemsUpdate sh items) := by
  obtain ⟨h1, h2, h3, h4, h5, h6⟩ := h
  exact ⟨h1, h2, h3, round2_cents _, round2_cents _, h6⟩

theorem centsRow_applyShippingUpdate {sh : Shipment} (h : CentsRow sh)
    (sd : ShippingData) : CentsRow (applyShippingUpdate sh sd) := by
  obtain ⟨h1, h2, h3, h4, h5, h6⟩ := h
  exact ⟨round2_cents _, round2_cents _, round2_cents _, h4, h5, h6⟩

/-- The PATCH closing step establishes the balance invariant on any row
whose monetary fields are whole-cent values. -/
theorem balanceInv_finalize (sh : Shipment) (step : ℕ) (b : Bool)
    (h : CentsRow sh) : BalanceInv (finalizeShipmentTotals sh step b) := by
  obtain ⟨h1, h2, h3, h4, h5, h6⟩ := h
  have hF : Cents (sh.purchaseCostEgp + sh.commissionCostEgp +
      sh.shippingCostEgp + sh.customsCostEgp + sh.takhreegCostEgp) :=
    (((h1.add h2).add h3).add h4).add h5
  have hB : Cents (max 0 ((sh.purchaseCostEgp + sh.commissionCostEgp +
      sh.shippingCostEgp + sh.customsCostEgp + sh.takhreegCostEgp) -
      sh.totalPaidEgp)) := (hF.sub h6).max_zero
  constructor
  · show round2 (max 0 ((sh.purchaseCostEgp + sh.commissionCostEgp +
        sh.shippingCostEgp + sh.customsCostEgp + sh.takhreegCostEgp) -
        sh.totalPaidEgp)) =
      max 0 (round2 (sh.purchaseCostEgp + sh.commissionCostEgp +
        sh.shippingCostEgp + sh.customsCostEgp + sh.takhreegCostEgp) -
        sh.totalPaidEgp)
    rw [round2_eq_of_cents hF, round2_eq_of_cents hB]
  · exact round2_nonneg (le_max_left 0 _)

theorem balanceInv_patchShipmentRow (sh : Shipment) (step : ℕ)
    (items : Option (List ShipmentItem)) (sd : Option ShippingData)
    (h : CentsRow sh) : BalanceInv (patchShipmentRow sh step items sd) := by
  cases items with
  | some its =>
    cases sd with
    | some d =>
      exact balanceInv_finalize _ _ _
        (centsRow_applyShippingUpdate (centsRow_applyItemsUpdate h its) d)
    | none => exact balanceInv_finalize _ _ _ (centsRow_applyItemsUpdate h its)
  | none =>
    cases sd with
    | some d => exact balanceInv_finalize _ _ _ (centsRow_applyShippingUpdate h d)
    | none => exact balanceInv_finalize _ _ _ h

theorem patchShipmentRow_id (sh : Shipment) (step : ℕ)
    (items : Option (List ShipmentItem)) (sd : Option ShippingData) :
    (patchShipmentRow sh step items sd).id = sh.id := by
  unfold patchShipmentRow
  cases items <;> cases sd <;> rfl

/-- Dissection of a successful PATCH: the shipment table is the keyed update
of the saved row by `patchShipmentRow`. -/
theorem updateShipmentRoute_ok (s : DBState) (id step : ℕ)
    (items : Option (List ShipmentItem)) (sd : Option ShippingData)
    (s2 : DBState) (h : updateShipmentRoute s id step items sd = .ok s2) :
    ∃ itemsForRecalc,
      s2.shipments = s.shipments.map (fun sh =>
        if sh.id == id then patchShipmentRow sh step itemsForRecalc sd
        else sh) := by
  unfold updateShipmentRoute at h
  cases hfind : getShipment s id with
  | none => rw [hfind] at h; simp at h
  | some sh0 =>
    rw [hfind] at h
    dsimp only at h
    simp only [Except.ok.injEq] at h
    exact ⟨_, by rw [← h]⟩

/-- C2: after every operation that writes shipment totals — payment
settlement, shipment creation, shipment update at any wizard step — the row
read back for the written shipment satisfies
`balanceEgp = max(0, finalTotalCostEgp - totalPaidEgp)` and hence
`balanceEgp ≥ 0`. -/
theorem C2_balance_invariant :
    (∀ (s : DBState) (data : PaymentInput) (now : ℤ) (s2 : DBState)
        (p : ShipmentPayment),
      runCreatePayment s data now = (s2, .ok p) →
      (∀ sh ∈ s.shipments, Cents sh.finalTotalCostEgp) →
      ∀ sh2, getShipment s2 data.shipmentId = some sh2 → BalanceInv sh2)
    ∧ (∀ (s : DBState) (id step : ℕ) (items : Option (List ShipmentItem))
        (sd : Option ShippingData) (s2 : DBState),
      updateShipmentRoute s id step items sd = .ok s2 →
      (∀ sh ∈ s.shipments, CentsRow sh) →
      ∀ sh2, getShipment s2 id = some sh2 → BalanceInv sh2)
    ∧ (∀ (items : List ShipmentItem) (rate : Option ℚ) (newId : ℕ)
        (status : String),
      (∀ it ∈ items, 0 ≤ it.totalPurchaseCostRmb ∧
        0 ≤ it.customsCostPerCartonEgp ∧ 0 ≤ it.takhreegCostPerCartonEgp) →
      0 ≤ rate.getD (143 / 20) →
      BalanceInv (createShipmentRoute items rate newId status)) := by
  refine ⟨?_, ?_, ?_⟩
  · intro s data now s2 p h hfin sh2 hsh2
    obtain ⟨shipment, amountEgp, rateOut, hfind, hnorm, hover, hp, hs2⟩ :=
      runCreatePayment_ok s data now s2 p h
    subst hs2
    rw [getShipment_commitPayment, hfind, Option.map_some'] at hsh2
    have hG := Option.some.inj hsh2
    subst hG
    have hc : Cents shipment.finalTotalCostEgp :=
      hfin shipment (List.mem_of_find?_eq_some hfind)
    constructor
    · exact round2_eq_of_cents ((hc.sub (round2_cents _)).max_zero)
    · exact round2_nonneg (le_max_left 0 _)
  · intro s id step items sd s2 h hrows sh2 hsh2
    obtain ⟨itemsForRecalc, hships⟩ := updateShipmentRoute_ok s id step items sd s2 h
    unfold getShipment at hsh2
    rw [hships, find_keyed_update _ _ _
      (fun sh => patchShipmentRow_id sh step itemsForRecalc sd)] at hsh2
    cases hfind : s.shipments.find? (fun sh => sh.id == id) with
    | none => rw [hfind] at hsh2; simp at hsh2
    | some sh0 =>
      rw [hfind] at hsh2
      simp only [Option.map_some'] at hsh2
      have hG := Option.some.inj hsh2
      subst hG
      exact balanceInv_patchShipmentRow sh0 step itemsForRecalc sd
        (hrows sh0 (List.mem_of_find?_eq_some hfind))
  · intro items rate newId status hitems hrate
    have hP : 0 ≤ totalPurchaseCostRmbOf items := by
      unfold totalPurchaseCostRmbOf
      apply List.sum_nonneg
      intro x hx
      obtain ⟨it, hit, rfl⟩ := List.mem_map.mp hx
      exact (hitems it hit).1
    have hCU : 0 ≤ totalCustomsCostEgpOf items := by
      unfold totalCustomsCostEgpOf
      apply List.sum_nonneg
      intro x hx
      obtain ⟨it, hit, rfl⟩ := List.mem_map.mp hx
      exact mul_nonneg (Nat.cast_nonneg _) (hitems it hit).2.1
    have hTA : 0 ≤ totalTakhreegCostEgpOf items := by
      unfold totalTakhreegCostEgpOf
      apply List.sum_nonneg
      intro x hx
      obtain ⟨it, hit, rfl⟩ := List.mem_map.mp hx
      exact mul_nonneg (Nat.cast_nonneg _) (hitems it hit).2.2
    have hF : 0 ≤ totalPurchaseCostRmbOf items * rate.getD (143 / 20) +
        totalCustomsCostEgpOf items + totalTakhreegCostEgpOf items :=
      add_nonneg (add_nonneg (mul_nonneg hP hrate) hCU) hTA
    constructor
    · show round2 (totalPurchaseCostRmbOf items * rate.getD (143 / 20) +
          totalCustomsCostEgpOf items + totalTakhreegCostEgpOf items) =
        max 0 (round2 (totalPurchaseCostRmbOf items * rate.getD (143 / 20) +
          totalCustomsCostEgpOf items + totalTakhreegCostEgpOf items) - 0)
      rw [sub_zero, max_eq_right (round2_nonneg hF)]
    · exact round2_nonneg hF

/-- Witness for C2, on the shipment-creation conjunct: an empty shipment
created with no rate rows satisfies the balance invariant. -/
theorem C2_balance_invariant_witness :
    BalanceInv (createShipmentRoute [] none 1 "جديدة") :=
  C2_balance_invariant.2.2 [] none 1 "جديدة"
    (by intro it hit; exact absurd hit (List.not_mem_nil it))
    (by norm_num [Option.getD])

theorem maxDate_of_ne_nil (l : List ℤ) (h : l ≠ []) : ∃ m, maxDate l = some m := by
  cases l with
  | nil => exact absurd rfl h
  | cons a t => exact maxDate_cons_isSome a t

/-- C3: after every successful settlement, the stored `totalPaidEgp` of the
written shipment equals the sum of `amountEgp` over all persisted payment
rows of that shipment — recomputed from the full payment history
(`SUM(amount_egp)`), not incrementally added. -/
theorem C3_total_paid_is_sum (s : DBState) (data : PaymentInput) (now : ℤ)
    (s2 : DBState) (p : ShipmentPayment)
    (h : runCreatePayment s data now = (s2, .ok p))
    (hc : ∀ q ∈ s.shipmentPayments, Cents q.amountEgp) :
    (getShipment s2 data.shipmentId).map (fun sh => sh.totalPaidEgp) =
      some (sumAmountEgp (paymentsOf s2.shipmentPayments data.shipmentId)) := by
  obtain ⟨shipment, amountEgp, rateOut, hfind, hnorm, hover, hp, hs2⟩ :=
    runCreatePayment_ok s data now s2 p h
  subst hs2
  rw [getShipment_commitPayment, hfind, Option.map_some', Option.map_some']
  have hpayrows : ∀ q ∈ paymentsOf (s.shipmentPayments ++ [p]) data.shipmentId,
      Cents q.amountEgp := by
    intro q hq
    rcases List.mem_append.mp (mem_of_paymentsOf hq) with hq3 | hq3
    · exact hc q hq3
    · simp only [List.mem_singleton] at hq3
      subst hq3
      rw [hp]
      exact round2_cents _
  show some (round2 (sumAmountEgp
      (paymentsOf (s.shipmentPayments ++ [p]) data.shipmentId))) = _
  rw [round2_eq_of_cents (cents_sumAmountEgp hpayrows)]
  rfl

/-- Witness for C3: a 400 EGP payment against a 1000 EGP shipment with no
prior payments; the stored total equals the sum over the one persisted
payment row. -/
theorem C3_total_paid_is_sum_witness :
    (getShipment (commitPayment (testState [testShipment 1 1000 0 1000] [])
        (egpInput 1 5 400) 7 (testShipment 1 1000 0 1000).finalTotalCostEgp
        (settledPayment (egpInput 1 5 400) 400 none)) 1).map
      (fun sh => sh.totalPaidEgp) =
    some (sumAmountEgp (paymentsOf (commitPayment
        (testState [testShipment 1 1000 0 1000] []) (egpInput 1 5 400) 7
        (testShipment 1 1000 0 1000).finalTotalCostEgp
        (settledPayment (egpInput 1 5 400) 400 none)).shipmentPayments 1)) :=
  C3_total_paid_is_sum (testState [testShipment 1 1000 0 1000] [])
    (egpInput 1 5 400) 7 _ _
    (runCreatePayment_commit (testState [testShipment 1 1000 0 1000] [])
      (egpInput 1 5 400) 7 (testShipment 1 1000 0 1000) 400 none rfl rfl
      (by norm_num [testShipment]))
    (by intro q hq; exact absurd hq (List.not_mem_nil q))

/-- C9: after every successful settlement, the written shipment's
`lastPaymentDate` is the maximum of the payment dates over all persisted
payments of that shipment — a date of one of those payments, never the
server clock `now`, so a backdated payment cannot move it forward. -/
theorem C9_last_payment_date (s : DBState) (data : PaymentInput) (now : ℤ)
    (s2 : DBState) (p : ShipmentPayment)
    (h : runCreatePayment s data now = (s2, .ok p)) :
    ∃ m, (getShipment s2 data.shipmentId).map (fun sh => sh.lastPaymentDate) =
        some (some m)
      ∧ m ∈ (paymentsOf s2.shipmentPayments data.shipmentId).map
          (fun q => q.paymentDate)
      ∧ ∀ d ∈ (paymentsOf s2.shipmentPayments data.shipmentId).map
          (fun q => q.paymentDate), d ≤ m := by
  obtain ⟨shipment, amountEgp, rateOut, hfind, hnorm, hover, hp, hs2⟩ :=
    runCreatePayment_ok s data now s2 p h
  subst hs2
  have hpid : p.shipmentId = data.shipmentId := by rw [hp]; rfl
  have hsplit : paymentsOf (s.shipmentPayments ++ [p]) data.shipmentId =
      paymentsOf s.shipmentPayments data.shipmentId ++ [p] :=
    paymentsOf_append_last _ _ _ hpid
  have hne : (paymentsOf (s.shipmentPayments ++ [p]) data.shipmentId).map
      (fun q => q.paymentDate) ≠ [] := by
    rw [hsplit]
    simp
  obtain ⟨m, hm⟩ := maxDate_of_ne_nil _ hne
  obtain ⟨hmem, hbound⟩ := maxDate_spec _ m hm
  refine ⟨m, ?_, ?_, ?_⟩
  · rw [getShipment_commitPayment, hfind, Option.map_some', Option.map_some']
    show some (some (match maxDate ((paymentsOf (s.shipmentPayments ++ [p])
        data.shipmentId).map (fun q => q.paymentDate)) with
      | some d => d
      | none => data.paymentDate)) = some (some m)
    rw [hm]
  · rcases List.mem_map.mp hmem with ⟨q, hq, rfl⟩
    exact List.mem_map_of_mem _ hq
  · intro d hd
    exact hbound d hd

/-- Witness for C9: the single 400 EGP payment dated 5 becomes the stored
`lastPaymentDate`, independent of the server clock value 7. -/
theorem C9_last_payment_date_witness :
    ∃ m, (getShipment (commitPayment (testState [testShipment 1 1000 0 1000] [])
          (egpInput 1 5 400) 7 (testShipment 1 1000 0 1000).finalTotalCostEgp
          (settledPayment (egpInput 1 5 400) 400 none)) 1).map
        (fun sh => sh.lastPaymentDate) = some (some m)
      ∧ m ∈ (paymentsOf (commitPayment (testState [testShipment 1 1000 0 1000] [])
          (egpInput 1 5 400) 7 (testShipment 1 1000 0 1000).finalTotalCostEgp
          (settledPayment (egpInput 1 5 400) 400 none)).shipmentPayments 1).map
          (fun q => q.paymentDate)
      ∧ ∀ d ∈ (paymentsOf (commitPayment (testState [testShipment 1 1000 0 1000] [])
          (egpInput 1 5 400) 7 (testShipment 1 1000 0 1000).finalTotalCostEgp
          (settledPayment (egpInput 1 5 400) 400 none)).shipmentPayments 1).map
          (fun q => q.paymentDate), d ≤ m :=
  C9_last_payment_date (testState [testShipment 1 1000 0 1000] [])
    (egpInput 1 5 400) 7 _ _
    (runCreatePayment_commit (testState [testShipment 1 1000 0 1000] [])
      (egpInput 1 5 400) 7 (testShipment 1 1000 0 1000) 400 none rfl rfl
      (by norm_num [testShipment]))

/-- C6: the currency normalizer.  An EGP payment keeps its amount and nulls
the rate; an RMB payment with an absent or non-positive rate fails with
`ValidationError`; an RMB payment with a positive rate converts by
multiplication. -/
theorem C6_normalizer (amountOriginal rateNP ratePos : ℚ) (rateOpt : Option ℚ)
    (hnp : rateNP ≤ 0) (hpos : 0 < ratePos) :
    normalizePaymentAmounts .EGP amountOriginal rateOpt =
      .ok (amountOriginal, none)
    ∧ normalizePaymentAmounts .RMB amountOriginal none = .error .validation
    ∧ normalizePaymentAmounts .RMB amountOriginal (some rateNP) =
      .error .validation
    ∧ normalizePaymentAmounts .RMB amountOriginal (some ratePos) =
      .ok (amountOriginal * ratePos, some ratePos) := by
  refine ⟨rfl, rfl, ?_, ?_⟩
  · unfold normalizePaymentAmounts
    dsimp only
    rw [if_pos hnp]
  · unfold normalizePaymentAmounts
    dsimp only
    rw [if_neg (not_le.mpr hpos)]

/-- Witness for C6: an EGP payment of 100 passes through; an RMB payment of
100 without a rate or with rate 0 is rejected; with rate 7 it converts to
700. -/
theorem C6_normalizer_witness :
    normalizePaymentAmounts .EGP 100 none = .ok (100, none)
    ∧ normalizePaymentAmounts .RMB 100 none = .error .validation
    ∧ normalizePaymentAmounts .RMB 100 (some 0) = .error .validation
    ∧ normalizePaymentAmounts .RMB 100 (some 7) = .ok (100 * 7, some 7) :=
  C6_normalizer 100 0 7 none (by norm_num) (by norm_num)

theorem finalize_sum (sh : Shipment) (step : ℕ) (b : Bool) (h : CentsRow sh) :
    (finalizeShipmentTotals sh step b).finalTotalCostEgp =
      (finalizeShipmentTotals sh step b).purchaseCostEgp +
        (finalizeShipmentTotals sh step b).commissionCostEgp +
        (finalizeShipmentTotals sh step b).shippingCostEgp +
        (finalizeShipmentTotals sh step b).customsCostEgp +
        (finalizeShipmentTotals sh step b).takhreegCostEgp := by
  obtain ⟨h1, h2, h3, h4, h5, h6⟩ := h
  exact round2_eq_of_cents ((((h1.add h2).add h3).add h4).add h5)

theorem finalTotal_patchShipmentRow (sh : Shipment) (step : ℕ)
    (items : Option (List ShipmentItem)) (sd : Option ShippingData)
    (h : CentsRow sh) :
    (patchShipmentRow sh step items sd).finalTotalCostEgp =
      (patchShipmentRow sh step items sd).purchaseCostEgp +
        (patchShipmentRow sh step items sd).commissionCostEgp +
        (patchShipmentRow sh step items sd).shippingCostEgp +
        (patchShipmentRow sh step items sd).customsCostEgp +
        (patchShipmentRow sh step items sd).takhreegCostEgp := by
  cases items with
  | some its =>
    cases sd with
    | some d =>
      exact finalize_sum _ _ _
        (centsRow_applyShippingUpdate (centsRow_applyItemsUpdate h its) d)
    | none => exact finalize_sum _ _ _ (centsRow_applyItemsUpdate h its)
  | none =>
    cases sd with
    | some d => exact finalize_sum _ _ _ (centsRow_applyShippingUpdate h d)
    | none => exact finalize_sum _ _ _ h

/-- C7: every PATCH of an existing shipment succeeds, stores
`finalTotalCostEgp` as the sum of the five current component fields (a
recomputation, not an accumulation), and an absent-or-zero shipping area,
per-sqm rate, or commission rate zeroes the corresponding component instead
of failing. -/
theorem C7_final_total_recompute :
    (∀ (s : DBState) (id step : ℕ) (items : Option (List ShipmentItem))
        (sd : Option ShippingData) (sh : Shipment),
      getShipment s id = some sh →
      ∃ s2, updateShipmentRoute s id step items sd = .ok s2)
    ∧ (∀ (s : DBState) (id step : ℕ) (items : Option (List ShipmentItem))
        (sd : Option ShippingData) (s2 : DBState),
      updateShipmentRoute s id step items sd = .ok s2 →
      (∀ sh ∈ s.shipments, CentsRow sh) →
      ∀ sh2, getShipment s2 id = some sh2 →
        sh2.finalTotalCostEgp = sh2.purchaseCostEgp + sh2.commissionCostEgp +
          sh2.shippingCostEgp + sh2.customsCostEgp + sh2.takhreegCostEgp)
    ∧ (∀ (sh : Shipment) (sd : ShippingData),
      sd.shippingAreaSqm.getD 0 = 0 ∨
        sd.shippingCostPerSqmUsdOriginal.getD 0 = 0 →
      (applyShippingUpdate sh sd).shippingCostEgp = 0 ∧
        (applyShippingUpdate sh sd).shippingCostRmb = 0)
    ∧ (∀ (sh : Shipment) (sd : ShippingData),
      sd.commissionRatePercent.getD 0 = 0 →
      (applyShippingUpdate sh sd).commissionCostEgp = 0 ∧
        (applyShippingUpdate sh sd).commissionCostRmb = 0) := by
  refine ⟨?_, ?_, ?_, ?_⟩
  · intro s id step items sd sh hfind
    unfold updateShipmentRoute
    rw [hfind]
    exact ⟨_, rfl⟩
  · intro s id step items sd s2 h hrows sh2 hsh2
    obtain ⟨itemsForRecalc, hships⟩ := updateShipmentRoute_ok s id step items sd s2 h
    unfold getShipment at hsh2
    rw [hships, find_keyed_update _ _ _
      (fun sh => patchShipmentRow_id sh step itemsForRecalc sd)] at hsh2
    cases hfind : s.shipments.find? (fun sh => sh.id == id) with
    | none => rw [hfind] at hsh2; simp at hsh2
    | some sh0 =>
      rw [hfind] at hsh2
      simp only [Option.map_some'] at hsh2
      have hG := Option.some.inj hsh2
      subst hG
      exact finalTotal_patchShipmentRow sh0 step itemsForRecalc sd
        (hrows sh0 (List.mem_of_find?_eq_some hfind))
  · intro sh sd h
    rcases h with h | h
    · constructor
      · show round2 (sd.shippingAreaSqm.getD 0 *
            sd.shippingCostPerSqmUsdOriginal.getD 0 * sd.usdToRmbRate.getD 1 *
            sd.rmbToEgpRate.getD 1) = 0
        rw [h, zero_mul, zero_mul, zero_mul, round2_zero]
      · show round2 (sd.shippingAreaSqm.getD 0 *
            sd.shippingCostPerSqmUsdOriginal.getD 0 *
            sd.usdToRmbRate.getD 1) = 0
        rw [h, zero_mul, zero_mul, round2_zero]
    · constructor
      · show round2 (sd.shippingAreaSqm.getD 0 *
            sd.shippingCostPerSqmUsdOriginal.getD 0 * sd.usdToRmbRate.getD 1 *
            sd.rmbToEgpRate.getD 1) = 0
        rw [h, mul_zero, zero_mul, zero_mul, round2_zero]
      · show round2 (sd.shippingAreaSqm.getD 0 *
            sd.shippingCostPerSqmUsdOriginal.getD 0 *
            sd.usdToRmbRate.getD 1) = 0
        rw [h, mul_zero, zero_mul, round2_zero]
  · intro sh sd h
    constructor
    · show round2 (sh.purchaseCostRmb * sd.commissionRatePercent.getD 0 / 100 *
          sd.rmbToEgpRate.getD 1) = 0
      rw [h, mul_zero, zero_div, zero_mul, round2_zero]
    · show round2 (sh.purchaseCostRmb * sd.commissionRatePercent.getD 0 / 100) = 0
      rw [h, mul_zero, zero_div, round2_zero]

/-- Witness for C7: a PATCH on an existing shipment with no items and no
shipping payload succeeds. -/
theorem C7_final_total_recompute_witness :
    ∃ s2, updateShipmentRoute (testState [testShipment 1 600 0 600] [])
      1 1 none none = .ok s2 :=
  C7_final_total_recompute.1 (testState [testShipment 1 600 0 600] [])
    1 1 none none (testShipment 1 600 0 600) rfl

/-- Scenario C fixture: 10 cartons, 12 pieces per carton, unit price
5.00 RMB, derived fields not yet filled in. -/
def itemC : ShipmentItem :=
  { shipmentId := 1
    cartonsCtn := 10
    piecesPerCartonPcs := 12
    purchasePricePerPiecePriRmb := 5
    totalPiecesCou := 0
    totalPurchaseCostRmb := 0
    customsCostPerCartonEgp := 0
    takhreegCostPerCartonEgp := 0 }

/-- Scenario C fixture: commission 5 %, RMB→EGP rate 7.15, no shipping
area. -/
def sdC : ShippingData :=
  { commissionRatePercent := some 5
    shippingAreaSqm := none
    shippingCostPerSqmUsdOriginal := none
    usdToRmbRate := none
    rmbToEgpRate := some (143 / 20) }

/-- C8: Scenario C.  The wizard line derivation gives
`totalPiecesCou = 10 * 12 = 120` and `lineTotalRmb = 120 * 5.00 = 600.00`;
the aggregator then computes `purchaseCostRmb = 600.00`,
`commissionRmb = 600 * 5 / 100 = 30.00` and
`commissionEgp = 30 * 7.15 = 214.50`. -/
theorem C8_scenario_c :
    (updateItem itemC).totalPiecesCou = 120
    ∧ (updateItem itemC).totalPurchaseCostRmb = 600
    ∧ (applyItemsUpdate (testShipment 1 0 0 0) [updateItem itemC]).purchaseCostRmb = 600
    ∧ (applyShippingUpdate
        (applyItemsUpdate (testShipment 1 0 0 0) [updateItem itemC])
        sdC).commissionCostRmb = 30
    ∧ (applyShippingUpdate
        (applyItemsUpdate (testShipment 1 0 0 0) [updateItem itemC])
        sdC).commissionCostEgp = 2145 / 10 := by
  have hline : (updateItem itemC).totalPurchaseCostRmb = 600 := by
    show round2 (((10 * 12 : ℕ) : ℚ) * 5) = 600
    norm_num [round2, roundTo]
  have hpurch : (applyItemsUpdate (testShipment 1 0 0 0)
      [updateItem itemC]).purchaseCostRmb = 600 := by
    show round2 (totalPurchaseCostRmbOf [updateItem itemC]) = 600
    rw [totalPurchaseCostRmbOf]
    rw [List.map_singleton, List.sum_singleton, hline]
    norm_num [round2, roundTo]
  refine ⟨rfl, hline, hpurch, ?_, ?_⟩
  · show round2 ((applyItemsUpdate (testShipment 1 0 0 0)
        [updateItem itemC]).purchaseCostRmb *
        sdC.commissionRatePercent.getD 0 / 100) = 30
    rw [hpurch]
    norm_num [sdC, round2, roundTo]
  · show round2 ((applyItemsUpdate (testShipment 1 0 0 0)
        [updateItem itemC]).purchaseCostRmb *
        sdC.commissionRatePercent.getD 0 / 100 * sdC.rmbToEgpRate.getD 1) = 2145 / 10
    rw [hpurch]
    norm_num [sdC, round2, roundTo]

theorem cents_listSum {l : List ℚ} (h : ∀ x ∈ l, Cents x) : Cents l.sum := by
  induction l with
  | nil => simpa using Cents.zero
  | cons a t ih =>
    have ha : Cents a := h a (by simp)
    have ht : Cents t.sum := ih fun x hx => h x (by simp [hx])
    simpa using ha.add ht

/-- C10: the supplier-balance report computes `balanceEgp` as
`totalCost - totalPaid` over the supplier's shipments with no clamping at
zero: when the linked payments exceed the total cost the reported balance
is negative and `balanceStatus` is `credit` (threshold 0.0001) — even
though the per-shipment `balanceEgp` written by the settlement engine is
never negative. -/
theorem C10_supplier_balance (supplierShipments : List Shipment)
    (allPayments : List ShipmentPayment)
    (hc : ∀ sh ∈ supplierShipments, Cents sh.finalTotalCostEgp)
    (hp : ∀ q ∈ allPayments, Cents q.amountEgp) :
    ((supplierBalanceRow supplierShipments allPayments).balanceEgp =
      (supplierShipments.map (fun sh => sh.finalTotalCostEgp)).sum -
        sumAmountEgp (allPayments.filter (fun p =>
          (supplierShipments.map (fun sh => sh.id)).contains p.shipmentId)))
    ∧ ((supplierShipments.map (fun sh => sh.finalTotalCostEgp)).sum <
        sumAmountEgp (allPayments.filter (fun p =>
          (supplierShipments.map (fun sh => sh.id)).contains p.shipmentId)) →
      (supplierBalanceRow supplierShipments allPayments).balanceEgp < 0)
    ∧ ((supplierBalanceRow supplierShipments allPayments).balanceStatus =
        "credit" ↔
      (supplierShipments.map (fun sh => sh.finalTotalCostEgp)).sum -
        sumAmountEgp (allPayments.filter (fun p =>
          (supplierShipments.map (fun sh => sh.id)).contains p.shipmentId)) <
        -(1 / 10000))
    ∧ (∀ (s : DBState) (data : PaymentInput) (now : ℤ) (s2 : DBState)
        (p : ShipmentPayment),
      runCreatePayment s data now = (s2, .ok p) →
      ∀ sh2, getShipment s2 data.shipmentId = some sh2 →
        0 ≤ sh2.balanceEgp) := by
  have hcC : Cents ((supplierShipments.map (fun sh => sh.finalTotalCostEgp)).sum) := by
    apply cents_listSum
    intro x hx
    obtain ⟨sh, hsh, rfl⟩ := List.mem_map.mp hx
    exact hc sh hsh
  have hpP : Cents (sumAmountEgp (allPayments.filter (fun p =>
      (supplierShipments.map (fun sh => sh.id)).contains p.shipmentId))) := by
    apply cents_sumAmountEgp
    intro q hq
    exact hp q (List.mem_of_mem_filter hq)
  have hbal : (supplierBalanceRow supplierShipments allPayments).balanceEgp =
      (supplierShipments.map (fun sh => sh.finalTotalCostEgp)).sum -
        sumAmountEgp (allPayments.filter (fun p =>
          (supplierShipments.map (fun sh => sh.id)).contains p.shipmentId)) := by
    show round2 _ = _
    exact round2_eq_of_cents (hcC.sub hpP)
  refine ⟨hbal, ?_, ?_, ?_⟩
  · intro hlt
    rw [hbal]
    linarith
  · show (if ((supplierShipments.map (fun sh => sh.finalTotalCostEgp)).sum -
        sumAmountEgp (allPayments.filter (fun p =>
          (supplierShipments.map (fun sh => sh.id)).contains p.shipmentId)) >
          1 / 10000) then "owing"
      else if ((supplierShipments.map (fun sh => sh.finalTotalCostEgp)).sum -
        sumAmountEgp (allPayments.filter (fun p =>
          (supplierShipments.map (fun sh => sh.id)).contains p.shipmentId)) <
          -(1 / 10000)) then "credit"
      else "settled") = "credit" ↔ _
    constructor
    · intro hstat
      by_cases h1 : (supplierShipments.map (fun sh => sh.finalTotalCostEgp)).sum -
          sumAmountEgp (allPayments.filter (fun p =>
            (supplierShipments.map (fun sh => sh.id)).contains p.shipmentId)) >
          1 / 10000
      · rw [if_pos h1] at hstat
        simp at hstat
      · rw [if_neg h1] at hstat
        by_cases h2 : (supplierShipments.map (fun sh => sh.finalTotalCostEgp)).sum -
            sumAmountEgp (allPayments.filter (fun p =>
              (supplierShipments.map (fun sh => sh.id)).contains p.shipmentId)) <
            -(1 / 10000)
        · exact h2
        · rw [if_neg h2] at hstat
          simp at hstat
    · intro h2
      rw [if_neg (by linarith), if_pos h2]
  · intro s data now s2 p h sh2 hsh2
    obtain ⟨shipment, amountEgp, rateOut, hfind, hnorm, hover, hpp, hs2⟩ :=
      runCreatePayment_ok s data now s2 p h
    subst hs2
    rw [getShipment_commitPayment, hfind, Option.map_some'] at hsh2
    have hG := Option.some.inj hsh2
    subst hG
    exact round2_nonneg (le_max_left 0 _)

/-- Witness for C10: one shipment costing 100 with a linked payment of 150
— the reported balance is −50 and the status is `credit`, while the
settlement engine's own per-shipment balance is never negative. -/
theorem C10_supplier_balance_witness :
    ((supplierBalanceRow [testShipment 1 100 0 100] [testPayment 1 5 150]).balanceEgp =
      ([testShipment 1 100 0 100].map (fun sh => sh.finalTotalCostEgp)).sum -
        sumAmountEgp ([testPayment 1 5 150].filter (fun p =>
          ([testShipment 1 100 0 100].map (fun sh => sh.id)).contains p.shipmentId)))
    ∧ (([testShipment 1 100 0 100].map (fun sh => sh.finalTotalCostEgp)).sum <
        sumAmountEgp ([testPayment 1 5 150].filter (fun p =>
          ([testShipment 1 100 0 100].map (fun sh => sh.id)).contains p.shipmentId)) →
      (supplierBalanceRow [testShipment 1 100 0 100] [testPayment 1 5 150]).balanceEgp < 0)
    ∧ ((supplierBalanceRow [testShipment 1 100 0 100] [testPayment 1 5 150]).balanceStatus =
        "credit" ↔
      ([testShipment 1 100 0 100].map (fun sh => sh.finalTotalCostEgp)).sum -
        sumAmountEgp ([testPayment 1 5 150].filter (fun p =>
          ([testShipment 1 100 0 100].map (fun sh => sh.id)).contains p.shipmentId)) <
        -(1 / 10000))
    ∧ (∀ (s : DBState) (data : PaymentInput) (now : ℤ) (s2 : DBState)
        (p : ShipmentPayment),
      runCreatePayment s data now = (s2, .ok p) →
      ∀ sh2, getShipment s2 data.shipmentId = some sh2 →
        0 ≤ sh2.balanceEgp) :=
  C10_supplier_balance [testShipment 1 100 0 100] [testPayment 1 5 150]
    (by
      intro sh hsh
      simp only [List.mem_singleton] at hsh
      subst hsh
      exact ⟨10000, by norm_num [testShipment]⟩)
    (by
      intro q hq
      simp only [List.mem_singleton] at hq
      subst hq
      exact ⟨15000, by norm_num [testPayment]⟩)

/-- Under the `FOR UPDATE` row lock the two settlements of a concurrent
pair run serially; this lemma treats one serial order.  With whole-cent
data — the shipment's totals, the persisted amounts, and the two submitted
EGP amounts — where each amount fits the remaining balance but their sum
exceeds it, the first settlement in lock order succeeds and the second is
rejected at the overpayment gate. -/
theorem serializedPair_second_rejected (s : DBState) (d1 d2 : PaymentInput)
    (now : ℤ) (sh : Shipment)
    (hsame : d2.shipmentId = d1.shipmentId)
    (hfind : getShipment s d1.shipmentId = some sh)
    (hc1 : d1.paymentCurrency = .EGP) (hc2 : d2.paymentCurrency = .EGP)
    (hfin : Cents sh.finalTotalCostEgp)
    (hpaysc : ∀ q ∈ s.shipmentPayments, Cents q.amountEgp)
    (hconsist : sh.totalPaidEgp =
      sumAmountEgp (paymentsOf s.shipmentPayments d1.shipmentId))
    (ha1c : Cents d1.amountOriginal) (ha2c : Cents d2.amountOriginal)
    (ha1pos : 0 < d1.amountOriginal) (ha2pos : 0 < d2.amountOriginal)
    (hfit1 : d1.amountOriginal ≤
      max 0 (sh.finalTotalCostEgp - sh.totalPaidEgp))
    (hfit2 : d2.amountOriginal ≤
      max 0 (sh.finalTotalCostEgp - sh.totalPaidEgp))
    (hsum : max 0 (sh.finalTotalCostEgp - sh.totalPaidEgp) <
      d1.amountOriginal + d2.amountOriginal) :
    (runCreatePayment s d1 now).2 =
      .ok (settledPayment d1 d1.amountOriginal none)
    ∧ (runCreatePayment (runCreatePayment s d1 now).1 d2 now).2 =
      .error (.overpayment overpaymentMessage) := by
  have hpaid : Cents sh.totalPaidEgp := by
    rw [hconsist]
    exact cents_sumAmountEgp (fun q hq => hpaysc q (mem_of_paymentsOf hq))
  have hnorm1 : normalizePaymentAmounts d1.paymentCurrency d1.amountOriginal
      d1.exchangeRateToEgp = .ok (d1.amountOriginal, none) := by rw [hc1]; rfl
  have hnorm2 : normalizePaymentAmounts d2.paymentCurrency d2.amountOriginal
      d2.exchangeRateToEgp = .ok (d2.amountOriginal, none) := by rw [hc2]; rfl
  have hnotover1 : ¬ d1.amountOriginal >
      max 0 (sh.finalTotalCostEgp - sh.totalPaidEgp) + 1 / 10000 :=
    not_lt.mpr (by linarith)
  have hrun1 := runCreatePayment_commit s d1 now sh d1.amountOriginal none
    hfind hnorm1 hnotover1
  have hr : max 0 (sh.finalTotalCostEgp - sh.totalPaidEgp) =
      sh.finalTotalCostEgp - sh.totalPaidEgp := by
    rcases le_or_lt 0 (sh.finalTotalCostEgp - sh.totalPaidEgp) with h | h
    · exact max_eq_right h
    · exfalso
      rw [max_eq_left h.le] at hfit1
      linarith
  have hsplit : paymentsOf (s.shipmentPayments ++
      [settledPayment d1 d1.amountOriginal none]) d1.shipmentId =
      paymentsOf s.shipmentPayments d1.shipmentId ++
        [settledPayment d1 d1.amountOriginal none] :=
    paymentsOf_append_last _ _ _ rfl
  have hT : round2 (sumAmountEgp (paymentsOf (s.shipmentPayments ++
      [settledPayment d1 d1.amountOriginal none]) d1.shipmentId)) =
      sh.totalPaidEgp + d1.amountOriginal := by
    rw [hsplit, sumAmountEgp_append]
    have h1 : sumAmountEgp [settledPayment d1 d1.amountOriginal none] =
        round2 d1.amountOriginal := by
      simp [sumAmountEgp, settledPayment]
    rw [h1, round2_eq_of_cents ha1c, ← hconsist]
    exact round2_eq_of_cents (hpaid.add ha1c)
  have hfind1 : getShipment (commitPayment s d1 now sh.finalTotalCostEgp
      (settledPayment d1 d1.amountOriginal none)) d2.shipmentId =
      some (settledRow sh s d1 now sh.finalTotalCostEgp
        (settledPayment d1 d1.amountOriginal none)) := by
    rw [hsame, getShipment_commitPayment, hfind, Option.map_some']
  have harith : d2.amountOriginal >
      max 0 (sh.finalTotalCostEgp -
        (sh.totalPaidEgp + d1.amountOriginal)) + 1 / 10000 := by
    rw [hr] at hfit1 hfit2 hsum
    rcases le_or_lt 0 (sh.finalTotalCostEgp -
        (sh.totalPaidEgp + d1.amountOriginal)) with hca | hca
    · rw [max_eq_right hca]
      have hdc : Cents (d2.amountOriginal - (sh.finalTotalCostEgp -
          (sh.totalPaidEgp + d1.amountOriginal))) :=
        ha2c.sub (hfin.sub (hpaid.add ha1c))
      have hdpos : 0 < d2.amountOriginal - (sh.finalTotalCostEgp -
          (sh.totalPaidEgp + d1.amountOriginal)) := by linarith
      have := Cents.one_cent_le hdc hdpos
      linarith
    · rw [max_eq_left hca.le]
      have := Cents.one_cent_le ha2c ha2pos
      linarith
  have hover2 : d2.amountOriginal >
      max 0 ((settledRow sh s d1 now sh.finalTotalCostEgp
          (settledPayment d1 d1.amountOriginal none)).finalTotalCostEgp -
        (settledRow sh s d1 now sh.finalTotalCostEgp
          (settledPayment d1 d1.amountOriginal none)).totalPaidEgp) +
        1 / 10000 := by
    have hpd : (settledRow sh s d1 now sh.finalTotalCostEgp
        (settledPayment d1 d1.amountOriginal none)).totalPaidEgp =
        sh.totalPaidEgp + d1.amountOriginal := hT
    rw [show (settledRow sh s d1 now sh.finalTotalCostEgp
        (settledPayment d1 d1.amountOriginal none)).finalTotalCostEgp =
        sh.finalTotalCostEgp from rfl, hpd]
    exact harith
  have hrun2 := runCreatePayment_overpay
    (commitPayment s d1 now sh.finalTotalCostEgp
      (settledPayment d1 d1.amountOriginal none)) d2 now
    (settledRow sh s d1 now sh.finalTotalCostEgp
      (settledPayment d1 d1.amountOriginal none))
    d2.amountOriginal none hfind1 hnorm2 hover2
  constructor
  · rw [hrun1]
  · rw [hrun1]
    dsimp only
    rw [hrun2]

/-- C5 (amended): two settlements against the same shipment whose
whole-cent EGP amounts individually fit the remaining balance but together
exceed it: under the `FOR UPDATE` serialization, in either serial order,
exactly one succeeds and the other is rejected with the overpayment error —
the second reads the first's committed `totalPaidEgp`, so both cannot pass
the check.  (For sub-cent amounts inside the 0.0001 epsilon the original
claim fails: see the counterexample.) -/
theorem C5_serialized_exactly_one (s : DBState) (d1 d2 : PaymentInput)
    (now : ℤ) (sh : Shipment)
    (hsame : d2.shipmentId = d1.shipmentId)
    (hfind : getShipment s d1.shipmentId = some sh)
    (hc1 : d1.paymentCurrency = .EGP) (hc2 : d2.paymentCurrency = .EGP)
    (hfin : Cents sh.finalTotalCostEgp)
    (hpaysc : ∀ q ∈ s.shipmentPayments, Cents q.amountEgp)
    (hconsist : sh.totalPaidEgp =
      sumAmountEgp (paymentsOf s.shipmentPayments d1.shipmentId))
    (ha1c : Cents d1.amountOriginal) (ha2c : Cents d2.amountOriginal)
    (ha1pos : 0 < d1.amountOriginal) (ha2pos : 0 < d2.amountOriginal)
    (hfit1 : d1.amountOriginal ≤
      max 0 (sh.finalTotalCostEgp - sh.totalPaidEgp))
    (hfit2 : d2.amountOriginal ≤
      max 0 (sh.finalTotalCostEgp - sh.totalPaidEgp))
    (hsum : max 0 (sh.finalTotalCostEgp - sh.totalPaidEgp) <
      d1.amountOriginal + d2.amountOriginal) :
    ((runCreatePayment s d1 now).2 =
        .ok (settledPayment d1 d1.amountOriginal none)
      ∧ (runCreatePayment (runCreatePayment s d1 now).1 d2 now).2 =
        .error (.overpayment overpaymentMessage))
    ∧ ((runCreatePayment s d2 now).2 =
        .ok (settledPayment d2 d2.amountOriginal none)
      ∧ (runCreatePayment (runCreatePayment s d2 now).1 d1 now).2 =
        .error (.overpayment overpaymentMessage)) := by
  constructor
  · exact serializedPair_second_rejected s d1 d2 now sh hsame hfind hc1 hc2
      hfin hpaysc hconsist ha1c ha2c ha1pos ha2pos hfit1 hfit2 hsum
  · refine serializedPair_second_rejected s d2 d1 now sh hsame.symm
      (by rw [hsame]; exact hfind) hc2 hc1 hfin hpaysc
      (by rw [hsame]; exact hconsist) ha2c ha1c ha2pos ha1pos hfit2 hfit1
      (by linarith)

/-- Witness for C5: Scenario D — remaining balance 600, concurrent payments
of 350 and 300: in both serial orders the first succeeds and the second is
rejected as an overpayment. -/
theorem C5_serialized_exactly_one_witness :
    ((runCreatePayment (testState [testShipment 1 600 0 600] [])
          (egpInput 1 5 350) 9).2 =
        .ok (settledPayment (egpInput 1 5 350)
          (egpInput 1 5 350).amountOriginal none)
      ∧ (runCreatePayment (runCreatePayment
            (testState [testShipment 1 600 0 600] []) (egpInput 1 5 350) 9).1
          (egpInput 1 6 300) 9).2 =
        .error (.overpayment overpaymentMessage))
    ∧ ((runCreatePayment (testState [testShipment 1 600 0 600] [])
          (egpInput 1 6 300) 9).2 =
        .ok (settledPayment (egpInput 1 6 300)
          (egpInput 1 6 300).amountOriginal none)
      ∧ (runCreatePayment (runCreatePayment
            (testState [testShipment 1 600 0 600] []) (egpInput 1 6 300) 9).1
          (egpInput 1 5 350) 9).2 =
        .error (.overpayment overpaymentMessage)) :=
  C5_serialized_exactly_one (testState [testShipment 1 600 0 600] [])
    (egpInput 1 5 350) (egpInput 1 6 300) 9 (testShipment 1 600 0 600)
    rfl rfl rfl rfl
    ⟨60000, by norm_num [testShipment]⟩
    (by intro q hq; exact absurd hq (List.not_mem_nil q))
    rfl
    ⟨35000, by norm_num [egpInput]⟩
    ⟨30000, by norm_num [egpInput]⟩
    (by norm_num [egpInput])
    (by norm_num [egpInput])
    (by norm_num [egpInput, testShipment, max_def])
    (by norm_num [egpInput, testShipment, max_def])
    (by norm_num [egpInput, testShipment, max_def])

/-- Counterexample to C5 as stated: with the 0.0001 epsilon tolerance, two
amounts (300 and 300.00005) that individually fit the remaining balance 600
and together exceed it are BOTH accepted, in both serial orders — not
"exactly one": the sub-cent overshoot 0.00005 stays inside the tolerance
after the first settlement commits. -/
theorem C5_counterexample :
    ((egpInput 1 5 300).amountOriginal ≤
        max 0 ((testShipment 1 600 0 600).finalTotalCostEgp -
          (testShipment 1 600 0 600).totalPaidEgp)
      ∧ (egpInput 1 6 (6000001 / 20000)).amountOriginal ≤
        max 0 ((testShipment 1 600 0 600).finalTotalCostEgp -
          (testShipment 1 600 0 600).totalPaidEgp)
      ∧ max 0 ((testShipment 1 600 0 600).finalTotalCostEgp -
          (testShipment 1 600 0 600).totalPaidEgp) <
        (egpInput 1 5 300).amountOriginal +
          (egpInput 1 6 (6000001 / 20000)).amountOriginal)
    ∧ ((runCreatePayment (testState [testShipment 1 600 0 600] [])
          (egpInput 1 5 300) 0).2 =
        .ok (settledPayment (egpInput 1 5 300) 300 none)
      ∧ (runCreatePayment (runCreatePayment
            (testState [testShipment 1 600 0 600] []) (egpInput 1 5 300) 0).1
          (egpInput 1 6 (6000001 / 20000)) 0).2 =
        .ok (settledPayment (egpInput 1 6 (6000001 / 20000))
          (6000001 / 20000) none))
    ∧ ((runCreatePayment (testState [testShipment 1 600 0 600] [])
          (egpInput 1 6 (6000001 / 20000)) 0).2 =
        .ok (settledPayment (egpInput 1 6 (6000001 / 20000))
          (6000001 / 20000) none)
      ∧ (runCreatePayment (runCreatePayment
            (testState [testShipment 1 600 0 600] [])
            (egpInput 1 6 (6000001 / 20000)) 0).1
          (egpInput 1 5 300) 0).2 =
        .ok (settledPayment (egpInput 1 5 300) 300 none)) := by
  refine ⟨⟨?_, ?_, ?_⟩, ⟨?_, ?_⟩, ⟨?_, ?_⟩⟩
  · norm_num [egpInput, testShipment, max_def]
  · norm_num [egpInput, testShipment, max_def]
  · norm_num [egpInput, testShipment, max_def]
  · have hrunA := runCreatePayment_commit
      (testState [testShipment 1 600 0 600] []) (egpInput 1 5 300) 0
      (testShipment 1 600 0 600) 300 none rfl rfl
      (by norm_num [testShipment, max_def])
    rw [hrunA]
  · have hrunA := runCreatePayment_commit
      (testState [testShipment 1 600 0 600] []) (egpInput 1 5 300) 0
      (testShipment 1 600 0 600) 300 none rfl rfl
      (by norm_num [testShipment, max_def])
    have hfindB : getShipment (commitPayment
        (testState [testShipment 1 600 0 600] []) (egpInput 1 5 300) 0
        (testShipment 1 600 0 600).finalTotalCostEgp
        (settledPayment (egpInput 1 5 300) 300 none))
        (egpInput 1 6 (6000001 / 20000)).shipmentId =
        some (settledRow (testShipment 1 600 0 600)
          (testState [testShipment 1 600 0 600] []) (egpInput 1 5 300) 0
          (testShipment 1 600 0 600).finalTotalCostEgp
          (settledPayment (egpInput 1 5 300) 300 none)) := by
      rw [show (egpInput 1 6 (6000001 / 20000)).shipmentId =
          (egpInput 1 5 300).shipmentId from rfl, getShipment_commitPayment]
      rfl
    have hrunB := runCreatePayment_commit
      (commitPayment (testState [testShipment 1 600 0 600] [])
        (egpInput 1 5 300) 0 (testShipment 1 600 0 600).finalTotalCostEgp
        (settledPayment (egpInput 1 5 300) 300 none))
      (egpInput 1 6 (6000001 / 20000)) 0
      (settledRow (testShipment 1 600 0 600)
        (testState [testShipment 1 600 0 600] []) (egpInput 1 5 300) 0
        (testShipment 1 600 0 600).finalTotalCostEgp
        (settledPayment (egpInput 1 5 300) 300 none))
      (6000001 / 20000) none hfindB rfl
      (by norm_num [settledRow, settledPayment, egpInput, testShipment,
        testState, paymentsOf, sumAmountEgp, round2, roundTo, max_def])
    rw [hrunA]
    dsimp only
    rw [hrunB]
  · have hrunB := runCreatePayment_commit
      (testState [testShipment 1 600 0 600] [])
      (egpInput 1 6 (6000001 / 20000)) 0 (testShipment 1 600 0 600)
      (6000001 / 20000) none rfl rfl
      (by norm_num [testShipment, max_def])
    rw [hrunB]
  · have hrunB := runCreatePayment_commit
      (testState [testShipment 1 600 0 600] [])
      (egpInput 1 6 (6000001 / 20000)) 0 (testShipment 1 600 0 600)
      (6000001 / 20000) none rfl rfl
      (by norm_num [testShipment, max_def])
    have hfindA : getShipment (commitPayment
        (testState [testShipment 1 600 0 600] [])
        (egpInput 1 6 (6000001 / 20000)) 0
        (testShipment 1 600 0 600).finalTotalCostEgp
        (settledPayment (egpInput 1 6 (6000001 / 20000))
          (6000001 / 20000) none))
        (egpInput 1 5 300).shipmentId =
        some (settledRow (testShipment 1 600 0 600)
          (testState [testShipment 1 600 0 600] [])
          (egpInput 1 6 (6000001 / 20000)) 0
          (testShipment 1 600 0 600).finalTotalCostEgp
          (settledPayment (egpInput 1 6 (6000001 / 20000))
            (6000001 / 20000) none)) := by
      rw [show (egpInput 1 5 300).shipmentId =
          (egpInput 1 6 (6000001 / 20000)).shipmentId from rfl,
        getShipment_commitPayment]
      rfl
    have hrunA := runCreatePayment_commit
      (commitPayment (testState [testShipment 1 600 0 600] [])
        (egpInput 1 6 (6000001 / 20000)) 0
        (testShipment 1 600 0 600).finalTotalCostEgp
        (settledPayment (egpInput 1 6 (6000001 / 20000))
          (6000001 / 20000) none))
      (egpInput 1 5 300) 0
      (settledRow (testShipment 1 600 0 600)
        (testState [testShipment 1 600 0 600] [])
        (egpInput 1 6 (6000001 / 20000)) 0
        (testShipment 1 600 0 600).finalTotalCostEgp
        (settledPayment (egpInput 1 6 (6000001 / 20000))
          (6000001 / 20000) none))
      300 none hfindA rfl
      (by norm_num [settledRow, settledPayment, egpInput, testShipment,
        testState, paymentsOf, sumAmountEgp, round2, roundTo, max_def])
    rw [hrunB]
    dsimp only
    rw [hrunA]

end FodaStore
